import Mathlib

/-!
Verification development for the WyseForex Telegram bot (src/bot.py).

Embedding conventions:
* Python floats are modelled as exact rationals (ℚ); the properties under
  study concern the algebraic structure of the computations, not binary
  rounding.
* A pandas series of daily closes is a `List ℚ`, ordered ascending by date;
  dates are abstracted to positions `0, 1, ...`.
* A pandas column with missing values (NaN) is modelled as an
  `ℕ → Option ℚ` function: `none` exactly where pandas produces NaN.
  The model assumes the fetched closes themselves are real numbers (no NaN
  in the input column), which is what `fetch_fx_daily` guarantees by
  `astype(float)` on provider data.
* Network fetches are I/O; batch commands take the per-pair
  fetch-and-analyze step as an oracle parameter
  `g : Pair → Except String Snapshot`, matching the fact that
  `analyze_pair(base, quote)` either returns a dict or raises.
* The job queue of `python-telegram-bot` is modelled as a `List Job`;
  `get_jobs_by_name` is a filter by name and `schedule_removal` removes the
  job from the list.
-/

namespace WyseForex

/-! ## Indicator engine (bot.py lines 36-43 and 62-90) -/

/-- Value of the close series at position `i` (callers guard the bounds;
the default is never observed where the column is defined). -/
def cAt (closes : List ℚ) (i : ℕ) : ℚ := closes.getD i 0

/-- Embedding of pandas `close.rolling(w).mean()` at position `i`: the mean
of the trailing window of `w` closes ending at `i`, NaN (`none`) until the
window is full (the default `min_periods` equals the window size). -/
def rollingMeanAt (w : ℕ) (closes : List ℚ) (i : ℕ) : Option ℚ :=
  if w ≤ i + 1 ∧ i < closes.length then
    some ((((closes.take (i + 1)).drop (i + 1 - w)).sum) / (w : ℚ))
  else none

/-- Positive part of the one-step difference: `delta.clip(lower=0)` of
`series.diff()` at position `i ≥ 1` (position 0 of the diff is NaN and is
handled by the `ewm` range below). -/
def gainAt (closes : List ℚ) (i : ℕ) : ℚ := max (cAt closes i - cAt closes (i - 1)) 0

/-- Negative part of the one-step difference: `-delta.clip(upper=0)` at
position `i ≥ 1`. -/
def lossAt (closes : List ℚ) (i : ℕ) : ℚ := max (cAt closes (i - 1) - cAt closes i) 0

/-- Decay factor of `ewm` with alpha 1/14: the weight ratio 1 - 1/14. -/
def ewmWeight : ℚ := 13 / 14

/-- Weighted numerator of pandas `ewm(alpha=1/14, adjust=True).mean()` at
position `t`, for a column `f` whose observations sit at positions
`1, ..., t` (position 0 of a diffed column is NaN, so it contributes no
term; with the default `ignore_na=False` the weight of the observation at
position `i` is `(13/14)^(t-i)`). -/
def ewmNum (f : ℕ → ℚ) (t : ℕ) : ℚ := ∑ k in Finset.range t, ewmWeight ^ k * f (t - k)

/-- Weight normalizer of the same `ewm` mean. -/
def ewmDen (t : ℕ) : ℚ := ∑ k in Finset.range t, ewmWeight ^ k

/-- Average gain column of `rsi` (bot.py line 40) at position `t`. -/
def avg_gain_at (closes : List ℚ) (t : ℕ) : ℚ := ewmNum (gainAt closes) t / ewmDen t

/-- Average loss column of `rsi` (bot.py line 41) before the `replace`. -/
def avg_loss_raw_at (closes : List ℚ) (t : ℕ) : ℚ := ewmNum (lossAt closes) t / ewmDen t

/-- Average loss after `.replace(0, 1e-9)` (bot.py line 41): an exact zero
becomes the floor 10⁻⁹. -/
def avg_loss_at (closes : List ℚ) (t : ℕ) : ℚ :=
  if avg_loss_raw_at closes t = 0 then 1 / 1000000000 else avg_loss_raw_at closes t

/-- RSI(14) column (bot.py lines 36-43): `100 - 100/(1+rs)` with
`rs = avg_gain / avg_loss`; NaN until `min_periods=14` observations of the
diffed series exist, i.e. until position 14. -/
def rsiAt (closes : List ℚ) (t : ℕ) : Option ℚ :=
  if 14 ≤ t ∧ t < closes.length then
    some (100 - 100 / (1 + avg_gain_at closes t / avg_loss_at closes t))
  else none

/-- Momentum column `close.pct_change(5) * 100` (bot.py line 68): NaN for
the first 5 positions. (For a zero close 5 bars back pandas would produce
inf/NaN; closes are positive prices, and the theorems that depend on row
validity carry a positivity hypothesis for exactly this reason.) -/
def momAt (closes : List ℚ) (i : ℕ) : Option ℚ :=
  if 5 ≤ i ∧ i < closes.length then
    some ((cAt closes i - cAt closes (i - 5)) / cAt closes (i - 5) * 100)
  else none

/-- Signal string appended on bot.py line 73. -/
def goldenCrossMsg : String := "Golden cross (bullish)"

/-- Signal string appended on bot.py line 74. -/
def deathCrossMsg : String := "Death cross (bearish)"

/-- The two cross-detection conditionals of `analyze_pair`
(bot.py lines 72-74), applied to the SMA values of the latest and the
second-to-latest fully-defined rows. -/
def crossSignals (s50t s200t s50p s200p : ℚ) : List String :=
  (if s50t > s200t ∧ s50p ≤ s200p then [goldenCrossMsg] else [])
    ++ (if s50t < s200t ∧ s50p ≥ s200p then [deathCrossMsg] else [])

/-- The dict returned by `analyze_pair` (bot.py lines 79-90), with raw
rational values in place of display-formatted strings; `asof` is the
position of the latest fully-defined row (the date index is abstracted to
positions). -/
structure Snapshot where
  price : ℚ
  rsi14 : ℚ
  rsi_state : String
  sma50 : ℚ
  sma200 : ℚ
  mom5 : ℚ
  tilt : String
  signals : List String
  asof : ℕ
deriving DecidableEq

/-- Row `i` survives `df.dropna()` (bot.py line 69): all four derived
columns are defined there. -/
def rowValid (closes : List ℚ) (i : ℕ) : Bool :=
  (rollingMeanAt 50 closes i).isSome && (rollingMeanAt 200 closes i).isSome
    && (rsiAt closes i).isSome && (momAt closes i).isSome

/-- Positions of the rows of the post-`dropna` frame, in order. -/
def validIdxs (closes : List ℚ) : List ℕ :=
  (List.range closes.length).filter (fun i => rowValid closes i)

/-- The fault pandas raises when `.iloc[-1]` / `.iloc[-2]` is applied to a
frame with fewer than the required number of rows. -/
inductive PyError where
  | indexError
deriving DecidableEq

/-- SMA50 value at a row where it is defined. -/
def sma50V (closes : List ℚ) (i : ℕ) : ℚ := (rollingMeanAt 50 closes i).getD 0

/-- SMA200 value at a row where it is defined. -/
def sma200V (closes : List ℚ) (i : ℕ) : ℚ := (rollingMeanAt 200 closes i).getD 0

/-- RSI14 value at a row where it is defined. -/
def rsi14V (closes : List ℚ) (i : ℕ) : ℚ := (rsiAt closes i).getD 0

/-- MOM5 value at a row where it is defined. -/
def mom5V (closes : List ℚ) (i : ℕ) : ℚ := (momAt closes i).getD 0

/-- Embedding of `analyze_pair` (bot.py lines 62-90) after the fetch:
compute the four indicator columns over the closes, drop the incomplete
rows, select `iloc[-1]` and `iloc[-2]` (an `IndexError` when fewer than two
rows remain), and build the snapshot dict. -/
def analyze_pair (closes : List ℚ) : Except PyError Snapshot :=
  match (validIdxs closes).reverse with
  | tIdx :: pIdx :: _ =>
      let s50t := sma50V closes tIdx
      let s200t := sma200V closes tIdx
      let r := rsi14V closes tIdx
      Except.ok
        { price := cAt closes tIdx
          rsi14 := r
          rsi_state := if r ≥ 70 then "Overbought" else if r ≤ 30 then "Oversold" else "Neutral"
          sma50 := s50t
          sma200 := s200t
          mom5 := mom5V closes tIdx
          tilt :=
            if s50t > s200t then "⬆️ Bullish tilt"
            else if s50t < s200t then "⬇️ Bearish tilt" else "➡️ Sideways"
          signals := crossSignals s50t s200t (sma50V closes pIdx) (sma200V closes pIdx)
          asof := tIdx }
  | _ => Except.error PyError.indexError

/-- Signals of a successful analysis (empty list on a fault). -/
def signalsOf (closes : List ℚ) : List String :=
  match analyze_pair closes with
  | Except.ok s => s.signals
  | Except.error _ => []

/-! ## Scheduler / job registry (bot.py lines 209-233) -/

/-- One entry of the telegram job queue, as created by `run_daily` on
bot.py line 222: a named daily trigger bound to a chat. Hours and minutes
are the Python ints produced by the parse (range-checked before a job is
built). -/
structure Job where
  name : String
  hour : ℤ
  minute : ℤ
  chatId : ℤ
deriving DecidableEq

/-- Job name used by the digest commands: the f-string on bot.py
lines 220 and 227. -/
def digestName (chatId : ℤ) : String := "digest_" ++ toString chatId

/-- Replies a scheduler command can send back to the user. -/
inductive Reply where
  | usage
  | invalidTime
  | scheduled (hh mm : ℤ)
  | noDigest
  | canceled
deriving DecidableEq

/-- Codepoints Python's `int(str)` strips around the number, determined
against CPython 3.11 by probing `int(chr(c) + "8")` and `int("8" + chr(c))`
over the whole codepoint range: the ASCII whitespace, NEL, NBSP, Ogham
space mark, the U+2000-200A spaces, the line/paragraph separators, the
narrow no-break and mathematical spaces and the ideographic space (the
`str.isspace` set minus the 0x1C-0x1F separators, which `int` rejects). -/
def pySpaceCodes : List ℕ :=
  [0x9, 0xa, 0xb, 0xc, 0xd, 0x20, 0x85, 0xa0, 0x1680, 0x2000, 0x2001,
   0x2002, 0x2003, 0x2004, 0x2005, 0x2006, 0x2007, 0x2008, 0x2009, 0x200a,
   0x2028, 0x2029, 0x202f, 0x205f, 0x3000]

/-- Whitespace as Python's `int(str)` strips it. -/
def isPySpace (c : Char) : Bool := pySpaceCodes.contains c.toNat

/-- Strip leading and trailing whitespace, as `int(str)` does. -/
def stripPySpace (cs : List Char) : List Char :=
  ((cs.dropWhile isPySpace).reverse.dropWhile isPySpace).reverse

/-- Start codepoints of the Unicode decimal-digit runs (category Nd, from
the Unicode 14.0 database bundled with CPython 3.11): every decimal digit
Python's `int(str)` converts lies in one of these runs of ten consecutive
codepoints, and its value is its offset inside the run. -/
def pyDigitRuns : List ℕ :=
  [0x30, 0x660, 0x6f0, 0x7c0, 0x966, 0x9e6, 0xa66, 0xae6, 0xb66, 0xbe6,
   0xc66, 0xce6, 0xd66, 0xde6, 0xe50, 0xed0, 0xf20, 0x1040, 0x1090, 0x17e0,
   0x1810, 0x1946, 0x19d0, 0x1a80, 0x1a90, 0x1b50, 0x1bb0, 0x1c40, 0x1c50,
   0xa620, 0xa8d0, 0xa900, 0xa9d0, 0xa9f0, 0xaa50, 0xabf0, 0xff10, 0x104a0,
   0x10d30, 0x11066, 0x110f0, 0x11136, 0x111d0, 0x112f0, 0x11450, 0x114d0,
   0x11650, 0x116c0, 0x11730, 0x118e0, 0x11950, 0x11c50, 0x11d50, 0x11da0,
   0x16a60, 0x16ac0, 0x16b50, 0x1d7ce, 0x1d7d8, 0x1d7e2, 0x1d7ec, 0x1d7f6,
   0x1e140, 0x1e2f0, 0x1e950, 0x1fbf0]

/-- Start of the decimal-digit run containing a character, when there is
one. -/
def pyDigitStart? (c : Char) : Option ℕ :=
  pyDigitRuns.find? (fun s => s ≤ c.toNat && c.toNat ≤ s + 9)

/-- Decimal digit as Python's `int(str)` accepts it (any Unicode decimal
digit, e.g. the Arabic-Indic or fullwidth digits, not only ASCII 0-9). -/
def isPyDigit (c : Char) : Bool := (pyDigitStart? c).isSome

/-- Decimal value of a Unicode decimal digit (0 on non-digits, which the
callers exclude). -/
def pyDigitVal (c : Char) : ℕ :=
  match pyDigitStart? c with
  | some s => c.toNat - s
  | none => 0

/-- Digit-group shape accepted by Python's integer literal conversion:
nonempty, first and last characters are decimal digits, every character is
a decimal digit or an underscore, and underscores are single and sit
between digits. -/
def pyDigitsOk (cs : List Char) : Bool :=
  match cs with
  | [] => false
  | c :: _ =>
      isPyDigit c && isPyDigit (cs.getLastD 'x')
        && cs.all (fun d => isPyDigit d || d = '_')
        && (cs.zip cs.tail).all (fun p => isPyDigit p.1 || isPyDigit p.2)

/-- Decimal value of a digit group (underscores are grouping only). -/
def pyDigitsVal (cs : List Char) : ℕ :=
  (cs.filter isPyDigit).foldl (fun acc c => 10 * acc + pyDigitVal c) 0

/-- Unsigned part of Python's `int(str)`. -/
def pyNat (cs : List Char) : Option ℕ :=
  if pyDigitsOk cs then some (pyDigitsVal cs) else none

/-- Embedding of Python's `int(str)`: optional surrounding whitespace
(Unicode, per `pySpaceCodes`), an optional single ASCII sign (the Unicode
minus and fullwidth signs raise ValueError in CPython), then
underscore-grouped Unicode decimal digits; anything else raises
ValueError (`none`). -/
def pyInt (cs : List Char) : Option ℤ :=
  match stripPySpace cs with
  | '+' :: rest => (pyNat rest).map (fun n => (n : ℤ))
  | '-' :: rest => (pyNat rest).map (fun n => -(n : ℤ))
  | ds => (pyNat ds).map (fun n => (n : ℤ))

/-- Embedding of Python's `str.split(sep)` for a one-character separator:
split at every occurrence, keeping empty pieces. -/
def splitOnChar (sep : Char) : List Char → List (List Char)
  | [] => [[]]
  | c :: rest =>
      if c = sep then [] :: splitOnChar sep rest
      else
        match splitOnChar sep rest with
        | h :: t => (c :: h) :: t
        | [] => [[c]]

/-- The `try` block of `schedule_digest_cmd` (bot.py lines 213-215):
`hh, mm = map(int, arg.split(":"))` followed by the range assert. Any
failure — wrong number of fields, a field `int` rejects, or an hour or
minute out of range — lands in the `except` branch (`none`). -/
def pyParseTime (s : String) : Option (ℤ × ℤ) :=
  match (splitOnChar ':' s.toList).map pyInt with
  | [some hh, some mm] =>
      if 0 ≤ hh ∧ hh < 24 ∧ 0 ≤ mm ∧ mm < 60 then some (hh, mm) else none
  | _ => none

/-- Embedding of `schedule_digest_cmd` (bot.py lines 209-223): usage check
(exactly one argument containing a colon), parse and range check, then
removal of every job with the chat's digest name followed by `run_daily`
of the new job. Returns the job queue after the command and the reply. -/
def schedule_digest_cmd (args : List String) (chatId : ℤ) (q : List Job) :
    List Job × Reply :=
  match args with
  | [a] =>
      if a.toList.contains ':' then
        match pyParseTime a with
        | some (hh, mm) =>
            (q.filter (fun j => j.name ≠ digestName chatId)
              ++ [{ name := digestName chatId, hour := hh, minute := mm, chatId := chatId }],
             Reply.scheduled hh mm)
        | none => (q, Reply.invalidTime)
      else (q, Reply.usage)
  | _ => (q, Reply.usage)

/-- Embedding of `cancel_digest_cmd` (bot.py lines 225-233): look up the
jobs carrying the chat's digest name; if none, reply that no digest is
set; otherwise remove them all and confirm. -/
def cancel_digest_cmd (chatId : ℤ) (q : List Job) : List Job × Reply :=
  if q.filter (fun j => j.name = digestName chatId) = [] then
    (q, Reply.noDigest)
  else
    (q.filter (fun j => j.name ≠ digestName chatId), Reply.canceled)

/-- Jobs a daily scheduler tick at the given wall-clock time fires. -/
def dueJobs (q : List Job) (hh mm : ℤ) : List Job :=
  q.filter (fun j => j.hour = hh ∧ j.minute = mm)

/-! ## Batch commands (bot.py lines 34, 104-112, 162-173, 189-207) -/

/-- A currency pair (base, quote). -/
abbrev Pair := String × String

/-- The constant list of bot.py line 34. -/
def MAJOR_PAIRS : List Pair :=
  [("EUR", "USD"), ("GBP", "USD"), ("USD", "JPY"), ("USD", "CHF"),
   ("AUD", "USD"), ("USD", "CAD"), ("NZD", "USD")]

/-- Messages a batch command sends to the chat. -/
inductive Msg where
  | headlines (lines : List String)
  | trendSummary (items : List Snapshot)
  | pairFailures (lines : List String)
  | text (s : String)
deriving DecidableEq

/-- Embedding of `get_forex_news` (bot.py lines 104-112): an absent API
key yields an empty result; otherwise the provider's article titles are
truncated to `limit` and bulleted. -/
def get_forex_news (key : Option String) (articles : List String) (limit : ℕ) :
    List String :=
  match key with
  | none => []
  | some _ => (articles.take limit).map (fun t => "• " ++ t)

/-- The shared per-pair loop of `trends_cmd` and `digest_job`: run the
fetch-and-analyze oracle on each pair in order; a success is appended to
the snapshots, a failure is formatted by `fmt` and appended to the
failure records, and the loop continues with the remaining pairs. -/
def runPairs (fmt : Pair → String → String) (g : Pair → Except String Snapshot)
    (pairs : List Pair) : List Snapshot × List String :=
  pairs.foldl
    (fun acc p =>
      match g p with
      | Except.ok a => (acc.1 ++ [a], acc.2)
      | Except.error e => (acc.1, acc.2 ++ [fmt p e]))
    ([], [])

/-- Failure record format of `trends_cmd` (bot.py line 169). -/
def trendsErrFmt (p : Pair) (e : String) : String := p.1 ++ "/" ++ p.2 ++ ": " ++ e

/-- Log line format of `digest_job` (bot.py line 202). -/
def digestLogFmt (p : Pair) (e : String) : String :=
  "digest pair fail " ++ p.1 ++ "/" ++ p.2 ++ ": " ++ e

/-- Embedding of `trends_cmd` (bot.py lines 162-173): analyze all major
pairs, send the summary when any pair succeeded, and send the first five
collected failure records afterwards when any pair failed. -/
def trends_cmd (g : Pair → Except String Snapshot) : List Msg :=
  let r := runPairs trendsErrFmt g MAJOR_PAIRS
  (if r.1 = [] then [] else [Msg.trendSummary r.1])
    ++ (if r.2 = [] then [] else [Msg.pairFailures (r.2.take 5)])

/-- Embedding of `digest_job` (bot.py lines 189-207): send the headlines
(requested with limit 5), analyze the first four major pairs — a per-pair
failure is written to the log and the loop continues — then send the
summary of the successes (or a placeholder). Returns the messages sent to
the chat and the warning log lines. -/
def digest_job (key : Option String) (articles : List String)
    (g : Pair → Except String Snapshot) : List Msg × List String :=
  let heads := get_forex_news key articles 5
  let r := runPairs digestLogFmt g (MAJOR_PAIRS.take 4)
  ([Msg.headlines heads,
    if r.1 = [] then Msg.text "No trend data." else Msg.trendSummary r.1],
   r.2)

/-! ## Spec-side statements (used to compare the code with the spec's words) -/

/-- Arithmetic mean of `closes[i-(w-1) .. i]`, written the way the spec
describes the moving averages (section 4.1 / section 8). -/
def smaSpecMean (w : ℕ) (closes : List ℚ) (i : ℕ) : ℚ :=
  (∑ k in Finset.range w, closes.getD (i + 1 - w + k) 0) / (w : ℚ)

/-- A time string of the form HH:MM with hour 0-23 and minute 0-59, read
as the spec's interface contract (section 6) describes it: two nonempty
all-digit fields around a single colon, values in range. -/
def isHHMMTimeString (s : String) : Bool :=
  match splitOnChar ':' s.toList with
  | [h, m] =>
      decide (h ≠ []) && decide (m ≠ []) && h.all Char.isDigit && m.all Char.isDigit
        && decide (pyDigitsVal h < 24) && decide (pyDigitsVal m < 60)
  | _ => false

/-! ## Concrete instances used to exercise the definitions -/

/-- A strictly rising 15-close series (1, 2, ..., 15). -/
def upSeries : List ℚ := (List.range 15).map (fun i => (i : ℚ) + 1)

/-- A perfectly flat 15-close series. -/
def flatSeries : List ℚ := List.replicate 15 1

/-- A constant series long enough for a full analysis (201 closes). -/
def constSeries : List ℚ := List.replicate 201 1

/-- A 201-close series engineered so that on the latest bar SMA50 and
SMA200 are exactly equal while on the bar before SMA50 is strictly below
SMA200: one high close followed by 200 constant closes. -/
def eqSeries : List ℚ := 2 :: List.replicate 200 1

/-- Recognizer for the failure-summary message of a batch. -/
def isPairFailures : Msg → Bool
  | Msg.pairFailures _ => true
  | _ => false

/-- A fixed, fully concrete snapshot for exercising the batch commands. -/
def sampleSnap : Snapshot :=
  { price := 1, rsi14 := 50, rsi_state := "Neutral", sma50 := 1, sma200 := 1,
    mom5 := 0, tilt := "➡️ Sideways", signals := [], asof := 200 }

/-- An oracle under which GBP/USD fails with the fetcher's no-data error
and every other pair succeeds. -/
def gFail : Pair → Except String Snapshot := fun p =>
  if p = ("GBP", "USD") then Except.error "No time series returned." else Except.ok sampleSnap

/-- A variant of `gFail` that differs only on NZD/USD, one of the last
three majors. -/
def gAlt : Pair → Except String Snapshot := fun p =>
  if p = ("NZD", "USD") then Except.error "boom" else gFail p

/-! ## Helper lemmas -/

theorem isSome_ite {α : Type} {p : Prop} [Decidable p] (x : α) :
    (if p then some x else none).isSome = decide p := by
  split <;> simp_all

theorem list_sum_eq_range (l : List ℚ) :
    l.sum = ∑ k in Finset.range l.length, l.getD k 0 := by
  induction l with
  | nil => simp
  | cons a t ih =>
      rw [List.sum_cons, List.length_cons, Finset.sum_range_succ', ih]
      simp [add_comm]

theorem slice_length (closes : List ℚ) (i w : ℕ) (hw : w ≤ i + 1)
    (hi : i < closes.length) :
    ((closes.take (i + 1)).drop (i + 1 - w)).length = w := by
  simp only [List.length_drop, List.length_take]
  omega

theorem slice_getD (closes : List ℚ) (i w k : ℕ) (hw : w ≤ i + 1) (hk : k < w) :
    ((closes.take (i + 1)).drop (i + 1 - w)).getD k 0 = closes.getD (i + 1 - w + k) 0 := by
  rw [List.getD_eq_getD_get?, List.getD_eq_getD_get?]
  simp only [List.get?_eq_getElem?, List.getElem?_drop,
    List.getElem?_take_of_lt (show i + 1 - w + k < i + 1 by omega)]

theorem rollingMeanAt_eq_spec (w : ℕ) (closes : List ℚ) (i : ℕ) (hw : w ≤ i + 1)
    (hi : i < closes.length) :
    rollingMeanAt w closes i = some (smaSpecMean w closes i) := by
  rw [rollingMeanAt, if_pos ⟨hw, hi⟩, smaSpecMean]
  rw [list_sum_eq_range, slice_length closes i w hw hi]
  rw [Finset.sum_congr rfl fun k hk =>
    slice_getD closes i w k hw (Finset.mem_range.mp hk)]

theorem rowValid_eq (closes : List ℚ) (i : ℕ) :
    rowValid closes i = decide (199 ≤ i ∧ i < closes.length) := by
  simp only [rowValid, rollingMeanAt, rsiAt, momAt, isSome_ite, ← Bool.decide_and]
  rw [decide_eq_decide]
  omega

theorem filter_range_le (m n : ℕ) :
    (List.range n).filter (fun i => decide (m ≤ i)) = List.range' m (n - m) := by
  induction n with
  | zero => simp
  | succ n ih =>
      rw [List.range_succ, List.filter_append, ih]
      by_cases h : m ≤ n
      · have h2 : n + 1 - m = (n - m) + 1 := by omega
        rw [h2, List.range'_concat]
        simp only [List.filter_cons, List.filter_nil, decide_eq_true_eq, if_pos h]
        congr 2
        omega
      · have h2 : n + 1 - m = 0 := by omega
        have h3 : n - m = 0 := by omega
        simp [h, h2, h3]

theorem validIdxs_eq (closes : List ℚ) :
    validIdxs closes = List.range' 199 (closes.length - 199) := by
  have hcong : (List.range closes.length).filter (fun i => rowValid closes i)
      = (List.range closes.length).filter (fun i => decide (199 ≤ i)) :=
    List.filter_congr fun i hi => by
      have hlt := List.mem_range.mp hi
      rw [rowValid_eq, decide_eq_decide]
      omega
  rw [validIdxs, hcong, filter_range_le 199 closes.length]

theorem validIdxs_reverse (closes : List ℚ) (h : 201 ≤ closes.length) :
    (validIdxs closes).reverse
      = (closes.length - 1) :: (closes.length - 2)
          :: (List.range' 199 (closes.length - 201)).reverse := by
  rw [validIdxs_eq]
  have h2 : closes.length - 199 = (closes.length - 201) + 1 + 1 := by omega
  rw [h2, List.range'_concat, List.range'_concat, List.reverse_append,
    List.reverse_append]
  simp only [List.reverse_cons, List.reverse_nil, List.nil_append, List.cons_append,
    List.append_assoc]
  have e1 : 199 + 1 * (closes.length - 201 + 1) = closes.length - 1 := by omega
  have e2 : 199 + 1 * (closes.length - 201) = closes.length - 2 := by omega
  rw [e1, e2]

theorem analyze_pair_short (closes : List ℚ) (h : closes.length ≤ 200) :
    analyze_pair closes = Except.error PyError.indexError := by
  have h0 : closes.length - 199 = 0 ∨ closes.length - 199 = 1 := by omega
  unfold analyze_pair
  rcases h0 with h0 | h0 <;> rw [validIdxs_eq, h0] <;> rfl

theorem analyze_pair_ok (closes : List ℚ) (h : 201 ≤ closes.length) :
    analyze_pair closes = Except.ok
      { price := cAt closes (closes.length - 1)
        rsi14 := rsi14V closes (closes.length - 1)
        rsi_state :=
          if rsi14V closes (closes.length - 1) ≥ 70 then "Overbought"
          else if rsi14V closes (closes.length - 1) ≤ 30 then "Oversold" else "Neutral"
        sma50 := sma50V closes (closes.length - 1)
        sma200 := sma200V closes (closes.length - 1)
        mom5 := mom5V closes (closes.length - 1)
        tilt :=
          if sma50V closes (closes.length - 1) > sma200V closes (closes.length - 1) then
            "⬆️ Bullish tilt"
          else if sma50V closes (closes.length - 1) < sma200V closes (closes.length - 1) then
            "⬇️ Bearish tilt"
          else "➡️ Sideways"
        signals := crossSignals (sma50V closes (closes.length - 1))
          (sma200V closes (closes.length - 1)) (sma50V closes (closes.length - 2))
          (sma200V closes (closes.length - 2))
        asof := closes.length - 1 } := by
  unfold analyze_pair
  rw [validIdxs_reverse closes h]

theorem signalsOf_eq (closes : List ℚ) (h : 201 ≤ closes.length) :
    signalsOf closes = crossSignals (sma50V closes (closes.length - 1))
      (sma200V closes (closes.length - 1)) (sma50V closes (closes.length - 2))
      (sma200V closes (closes.length - 2)) := by
  unfold signalsOf
  rw [analyze_pair_ok closes h]

theorem goldenMsg_ne_deathMsg : goldenCrossMsg ≠ deathCrossMsg := by decide

theorem mem_crossSignals_golden (a b c d : ℚ) :
    goldenCrossMsg ∈ crossSignals a b c d ↔ (a > b ∧ c ≤ d) := by
  rw [crossSignals]
  by_cases h1 : a > b ∧ c ≤ d <;> by_cases h2 : a < b ∧ c ≥ d <;>
    simp [h1, h2, goldenMsg_ne_deathMsg]

theorem mem_crossSignals_death (a b c d : ℚ) :
    deathCrossMsg ∈ crossSignals a b c d ↔ (a < b ∧ c ≥ d) := by
  rw [crossSignals]
  by_cases h1 : a > b ∧ c ≤ d <;> by_cases h2 : a < b ∧ c ≥ d <;>
    simp [h1, h2, Ne.symm goldenMsg_ne_deathMsg]

theorem ewmWeight_pos : 0 < ewmWeight := by
  rw [ewmWeight]; norm_num

theorem ewmNum_nonneg (f : ℕ → ℚ) (t : ℕ) (hf : ∀ i, 0 ≤ f i) : 0 ≤ ewmNum f t :=
  Finset.sum_nonneg fun k _ =>
    mul_nonneg (pow_nonneg (le_of_lt ewmWeight_pos) k) (hf _)

theorem ewmDen_nonneg (t : ℕ) : 0 ≤ ewmDen t :=
  Finset.sum_nonneg fun k _ => pow_nonneg (le_of_lt ewmWeight_pos) k

theorem avg_gain_nonneg (closes : List ℚ) (t : ℕ) : 0 ≤ avg_gain_at closes t :=
  div_nonneg (ewmNum_nonneg _ _ fun _ => le_max_right _ _) (ewmDen_nonneg t)

theorem avg_loss_raw_nonneg (closes : List ℚ) (t : ℕ) : 0 ≤ avg_loss_raw_at closes t :=
  div_nonneg (ewmNum_nonneg _ _ fun _ => le_max_right _ _) (ewmDen_nonneg t)

theorem avg_loss_pos (closes : List ℚ) (t : ℕ) : 0 < avg_loss_at closes t := by
  rw [avg_loss_at]
  by_cases h : avg_loss_raw_at closes t = 0
  · rw [if_pos h]; norm_num
  · rw [if_neg h]
    exact lt_of_le_of_ne (avg_loss_raw_nonneg closes t) (Ne.symm h)

theorem rsi_formula_bounds (rs : ℚ) (h : 0 ≤ rs) :
    0 ≤ 100 - 100 / (1 + rs) ∧ 100 - 100 / (1 + rs) < 100 := by
  have h1 : (0 : ℚ) < 1 + rs := by linarith
  constructor
  · have h2 : 100 / (1 + rs) ≤ 100 := by
      rw [div_le_iff₀ h1]; nlinarith
    linarith
  · have h3 : 0 < 100 / (1 + rs) := div_pos (by norm_num) h1
    linarith

/-! ## Claim theorems -/

/-- C1: for every fetched series with at most 200 closes (so fewer than
two fully-defined rows survive the dropna), `analyze_pair` does NOT fail
with an InsufficientData condition: it raises the index/range fault of
`.iloc[-1]` / `.iloc[-2]`. This is the behaviour the spec (sections 4.1,
8 and 9) says the implementation must guard against; the code has no such
guard, so the claim describes the intent and the code is in the wrong. -/
theorem C1_short_series_index_fault (closes : List ℚ) (h : closes.length ≤ 200) :
    analyze_pair closes = Except.error PyError.indexError :=
  analyze_pair_short closes h

set_option maxRecDepth 100000 in
attribute [local semireducible] Rat.mul Rat.inv Rat.add Rat.sub Rat.ofScientific in
/-- Witness for C1: a 100-close series trips the index fault. -/
theorem C1_short_series_index_fault_witness :
    (List.replicate 100 (1 : ℚ)).length ≤ 200 ∧
      analyze_pair (List.replicate 100 (1 : ℚ)) = Except.error PyError.indexError :=
  ⟨by decide, C1_short_series_index_fault (List.replicate 100 (1 : ℚ)) (by decide)⟩

/-- C2: on every positive series long enough for a full analysis, the
golden-cross signal is emitted iff SMA50 was ≤ SMA200 on the
second-to-latest fully-defined row and is strictly greater on the latest;
the death-cross signal is emitted under the mirror condition; and the two
signals are never emitted together. -/
theorem C2_cross_conditions (closes : List ℚ) (_hpos : ∀ x ∈ closes, 0 < x)
    (hlen : 201 ≤ closes.length) :
    (goldenCrossMsg ∈ signalsOf closes ↔
      sma50V closes (closes.length - 2) ≤ sma200V closes (closes.length - 2) ∧
        sma50V closes (closes.length - 1) > sma200V closes (closes.length - 1)) ∧
    (deathCrossMsg ∈ signalsOf closes ↔
      sma50V closes (closes.length - 2) ≥ sma200V closes (closes.length - 2) ∧
        sma50V closes (closes.length - 1) < sma200V closes (closes.length - 1)) ∧
    ¬(goldenCrossMsg ∈ signalsOf closes ∧ deathCrossMsg ∈ signalsOf closes) := by
  rw [signalsOf_eq closes hlen, mem_crossSignals_golden, mem_crossSignals_death]
  refine ⟨Iff.intro (fun h => ⟨h.2, h.1⟩) (fun h => ⟨h.2, h.1⟩),
    Iff.intro (fun h => ⟨h.2, h.1⟩) (fun h => ⟨h.2, h.1⟩), ?_⟩
  rintro ⟨⟨hgt, _⟩, ⟨hlt, _⟩⟩
  exact lt_asymm hgt hlt

set_option maxRecDepth 100000 in
attribute [local semireducible] Rat.mul Rat.inv Rat.add Rat.sub Rat.ofScientific in
/-- Witness for C2: the conditions instantiated on a constant 201-close
series. -/
theorem C2_cross_conditions_witness :
    (∀ x ∈ constSeries, (0 : ℚ) < x) ∧ 201 ≤ constSeries.length ∧
      ((goldenCrossMsg ∈ signalsOf constSeries ↔
        sma50V constSeries (constSeries.length - 2)
            ≤ sma200V constSeries (constSeries.length - 2) ∧
          sma50V constSeries (constSeries.length - 1)
            > sma200V constSeries (constSeries.length - 1)) ∧
      (deathCrossMsg ∈ signalsOf constSeries ↔
        sma50V constSeries (constSeries.length - 2)
            ≥ sma200V constSeries (constSeries.length - 2) ∧
          sma50V constSeries (constSeries.length - 1)
            < sma200V constSeries (constSeries.length - 1)) ∧
      ¬(goldenCrossMsg ∈ signalsOf constSeries ∧ deathCrossMsg ∈ signalsOf constSeries)) :=
  ⟨by decide, by decide, C2_cross_conditions constSeries (by decide) (by decide)⟩

set_option maxRecDepth 100000 in
attribute [local semireducible] Rat.mul Rat.inv Rat.add Rat.sub Rat.ofScientific in
/-- C3 counterexample: on `eqSeries` the two SMAs are exactly equal on the
latest fully-defined row after SMA50 was strictly below SMA200 on the row
before, yet `analyze_pair` emits no signal at all — the golden cross does
NOT fire on an exact touch, contradicting the claim's "currently ≥" and
"fires when the two SMAs are exactly equal" reading. -/
theorem C3_counterexample_equal_smas :
    sma50V eqSeries (eqSeries.length - 1) = sma200V eqSeries (eqSeries.length - 1) ∧
    sma50V eqSeries (eqSeries.length - 2) < sma200V eqSeries (eqSeries.length - 2) ∧
    signalsOf eqSeries = [] :=
  ⟨by decide, by decide, by decide⟩

/-- C3 (amended): the golden cross fires exactly when SMA50 is currently
STRICTLY greater than SMA200 and was ≤ on the preceding fully-defined row;
the death cross fires exactly when SMA50 is currently strictly less and
was ≥ before; when the two SMAs are exactly equal on the latest row no
signal fires. -/
theorem C3_amended_strict_cross (closes : List ℚ) (_hpos : ∀ x ∈ closes, 0 < x)
    (hlen : 201 ≤ closes.length) :
    (goldenCrossMsg ∈ signalsOf closes ↔
      sma50V closes (closes.length - 1) > sma200V closes (closes.length - 1) ∧
        sma50V closes (closes.length - 2) ≤ sma200V closes (closes.length - 2)) ∧
    (deathCrossMsg ∈ signalsOf closes ↔
      sma50V closes (closes.length - 1) < sma200V closes (closes.length - 1) ∧
        sma50V closes (closes.length - 2) ≥ sma200V closes (closes.length - 2)) ∧
    (sma50V closes (closes.length - 1) = sma200V closes (closes.length - 1) →
      signalsOf closes = []) := by
  rw [signalsOf_eq closes hlen, mem_crossSignals_golden, mem_crossSignals_death]
  refine ⟨Iff.rfl, Iff.rfl, fun heq => ?_⟩
  simp [crossSignals, heq, lt_irrefl]

set_option maxRecDepth 100000 in
attribute [local semireducible] Rat.mul Rat.inv Rat.add Rat.sub Rat.ofScientific in
/-- Witness for the amended C3, instantiated on `eqSeries` (whose latest
SMAs are exactly equal). -/
theorem C3_amended_strict_cross_witness :
    (∀ x ∈ eqSeries, (0 : ℚ) < x) ∧ 201 ≤ eqSeries.length ∧
      ((goldenCrossMsg ∈ signalsOf eqSeries ↔
        sma50V eqSeries (eqSeries.length - 1) > sma200V eqSeries (eqSeries.length - 1) ∧
          sma50V eqSeries (eqSeries.length - 2) ≤ sma200V eqSeries (eqSeries.length - 2)) ∧
      (deathCrossMsg ∈ signalsOf eqSeries ↔
        sma50V eqSeries (eqSeries.length - 1) < sma200V eqSeries (eqSeries.length - 1) ∧
          sma50V eqSeries (eqSeries.length - 2) ≥ sma200V eqSeries (eqSeries.length - 2)) ∧
      (sma50V eqSeries (eqSeries.length - 1) = sma200V eqSeries (eqSeries.length - 1) →
        signalsOf eqSeries = [])) :=
  ⟨by decide, by decide, C3_amended_strict_cross eqSeries (by decide) (by decide)⟩

set_option maxRecDepth 100000 in
attribute [local semireducible] Rat.mul Rat.inv Rat.add Rat.sub Rat.ofScientific in
/-- C4 counterexample: on a perfectly flat series the average loss is
exactly zero, yet the RSI is 0, not "near 100" — the saturation clause of
the claim fails when the average gain is also zero. -/
theorem C4_counterexample_flat_series :
    avg_loss_raw_at flatSeries 14 = 0 ∧ rsiAt flatSeries 14 = some 0 :=
  ⟨by decide, by decide⟩

/-- C4 (amended): wherever RSI is defined the divisor is the positive
floored average loss (never exact zero), the value lies in [0, 100), and
when the average loss is exactly zero AND the average gain is at least
10⁻⁶ the RSI exceeds 99.9; on a fully flat series (average gain also zero)
the RSI is 0 instead. -/
theorem C4_amended_rsi_floor_bounds (closes : List ℚ) (t : ℕ) (r : ℚ)
    (h : rsiAt closes t = some r) :
    0 < avg_loss_at closes t ∧ (0 ≤ r ∧ r < 100) ∧
      (avg_loss_raw_at closes t = 0 → 1 / 1000000 ≤ avg_gain_at closes t →
        999 / 10 < r) := by
  have hr : r = 100 - 100 / (1 + avg_gain_at closes t / avg_loss_at closes t) := by
    rw [rsiAt] at h
    split at h
    · exact (Option.some.inj h).symm
    · exact absurd h (by simp)
  have hAL := avg_loss_pos closes t
  have hrs : 0 ≤ avg_gain_at closes t / avg_loss_at closes t :=
    div_nonneg (avg_gain_nonneg closes t) (le_of_lt hAL)
  refine ⟨hAL, hr ▸ rsi_formula_bounds _ hrs, fun hz hag => ?_⟩
  have hALv : avg_loss_at closes t = 1 / 1000000000 := by
    rw [avg_loss_at, if_pos hz]
  have hrs2 : (1000 : ℚ) ≤ avg_gain_at closes t / avg_loss_at closes t := by
    rw [hALv, div_eq_mul_inv]
    norm_num
    linarith
  have h1 : (1001 : ℚ) ≤ 1 + avg_gain_at closes t / avg_loss_at closes t := by linarith
  have h2 : 100 / (1 + avg_gain_at closes t / avg_loss_at closes t) ≤ 100 / 1001 :=
    div_le_div_of_nonneg_left (by norm_num) (by linarith) h1
  rw [hr]
  have h3 : (100 : ℚ) / 1001 < 1 / 10 := by norm_num
  linarith

set_option maxRecDepth 100000 in
attribute [local semireducible] Rat.mul Rat.inv Rat.add Rat.sub Rat.ofScientific in
/-- Witness for the amended C4: the strictly rising 15-close series has
average loss exactly zero, average gain 1, and RSI 10¹¹/(10⁹+1) > 99.9. -/
theorem C4_amended_rsi_floor_bounds_witness :
    rsiAt upSeries 14 = some (100000000000 / 1000000001) ∧
      (0 < avg_loss_at upSeries 14 ∧
        (0 ≤ (100000000000 : ℚ) / 1000000001 ∧ (100000000000 : ℚ) / 1000000001 < 100) ∧
        avg_loss_raw_at upSeries 14 = 0 ∧
        (1 : ℚ) / 1000000 ≤ avg_gain_at upSeries 14 ∧
        (999 : ℚ) / 10 < 100000000000 / 1000000001) := by
  have h : rsiAt upSeries 14 = some (100000000000 / 1000000001) := by
    decide
  have hz : avg_loss_raw_at upSeries 14 = 0 := by decide
  have hg : (1 : ℚ) / 1000000 ≤ avg_gain_at upSeries 14 := by decide
  have main := C4_amended_rsi_floor_bounds upSeries 14 (100000000000 / 1000000001) h
  exact ⟨h, main.1, main.2.1, hz, hg, main.2.2 hz hg⟩

/-- C5: the SMA50/SMA200 columns of `analyze_pair` equal the arithmetic
mean of the trailing 50/200 closes at every index where the window has
filled, and are absent (NaN) at every other index. -/
theorem C5_sma_window_mean (closes : List ℚ) (i : ℕ) :
    rollingMeanAt 50 closes i
        = (if 49 ≤ i ∧ i < closes.length then some (smaSpecMean 50 closes i) else none) ∧
    rollingMeanAt 200 closes i
        = (if 199 ≤ i ∧ i < closes.length then some (smaSpecMean 200 closes i) else none) := by
  constructor
  · by_cases h : 49 ≤ i ∧ i < closes.length
    · rw [if_pos h]
      exact rollingMeanAt_eq_spec 50 closes i (by omega) h.2
    · rw [if_neg h, rollingMeanAt, if_neg (by omega)]
  · by_cases h : 199 ≤ i ∧ i < closes.length
    · rw [if_pos h]
      exact rollingMeanAt_eq_spec 200 closes i (by omega) h.2
    · rw [if_neg h, rollingMeanAt, if_neg (by omega)]

/-! ## Scheduler lemmas and claims C6-C8 -/

theorem filter_name_of_filter_ne (A : String) (q : List Job) :
    (q.filter (fun j => j.name ≠ A)).filter (fun j => j.name = A) = [] := by
  rw [List.filter_filter]
  apply List.filter_eq_nil_iff.mpr
  intro j _
  simp

theorem filter_name_of_filter_ne_le (nm A : String) (q : List Job) :
    ((q.filter (fun j => j.name ≠ A)).filter (fun j => j.name = nm)).length
      ≤ (q.filter (fun j => j.name = nm)).length := by
  rw [List.filter_filter, ← List.countP_eq_length_filter, ← List.countP_eq_length_filter]
  apply List.countP_mono_left
  intro j _ hj
  simp only [Bool.and_eq_true, decide_eq_true_eq] at hj ⊢
  exact hj.1

/-- C6: scheduling a digest removes every job with the chat's digest name
before installing the new one: the concrete two-step scenario from the
empty registry leaves exactly one job for chat 1 and it fires at 09:00,
and the at-most-one-job-per-name invariant is preserved by every
`schedule_digest_cmd` call. -/
theorem C6_schedule_replaces :
    ((schedule_digest_cmd ["09:00"] 1 (schedule_digest_cmd ["08:30"] 1 []).1).1
        = [{ name := "digest_1", hour := 9, minute := 0, chatId := 1 }]) ∧
    (∀ (q : List Job) (args : List String) (chat : ℤ) (nm : String),
      (q.filter (fun j => j.name = nm)).length ≤ 1 →
      ((schedule_digest_cmd args chat q).1.filter (fun j => j.name = nm)).length ≤ 1) := by
  constructor
  · decide
  · intro q args chat nm h
    match args with
    | [] => exact h
    | a :: b :: t => exact h
    | [a] =>
        simp only [schedule_digest_cmd]
        by_cases hc : a.toList.contains ':'
        · rw [if_pos hc]
          cases hp : pyParseTime a with
          | none => exact h
          | some hm =>
              rw [List.filter_append, List.length_append]
              by_cases hnm : nm = digestName chat
              · subst hnm
                rw [filter_name_of_filter_ne (digestName chat) q]
                simp
              · have h1 := filter_name_of_filter_ne_le nm (digestName chat) q
                have h2 : List.filter (fun j => j.name = nm)
                    [Job.mk (digestName chat) hm.1 hm.2 chat] = [] := by
                  simp [Ne.symm hnm]
                rw [h2]
                simp only [List.length_nil]
                omega
        · rw [if_neg hc]
          exact h

/-- Witness for C6: the invariant instance at a one-job registry. -/
theorem C6_schedule_replaces_witness :
    (([Job.mk "digest_1" 8 30 1].filter (fun j => j.name = "digest_1")).length ≤ 1) ∧
    ((schedule_digest_cmd ["09:00"] 1 [Job.mk "digest_1" 8 30 1]).1.filter
        (fun j => j.name = "digest_1")).length ≤ 1 ∧
    (schedule_digest_cmd ["09:00"] 1 (schedule_digest_cmd ["08:30"] 1 []).1).1
        = [{ name := "digest_1", hour := 9, minute := 0, chatId := 1 }] := by
  have h : (([Job.mk "digest_1" 8 30 1].filter (fun j => j.name = "digest_1")).length ≤ 1) := by
    decide
  exact ⟨h, C6_schedule_replaces.2 [Job.mk "digest_1" 8 30 1] ["09:00"] 1 "digest_1" h,
    C6_schedule_replaces.1⟩

/-- C7 counterexample: the time string "+8:30" is not of the form HH:MM
(its hour field carries a sign), yet `schedule_digest_cmd` accepts it —
Python's `int` tolerates signs and whitespace — and installs a job at
08:30 instead of rejecting the command. -/
theorem C7_counterexample_liberal_parse :
    isHHMMTimeString "+8:30" = false ∧
      (schedule_digest_cmd ["+8:30"] 1 []).1
        = [{ name := "digest_1", hour := 8, minute := 30, chatId := 1 }] ∧
      (schedule_digest_cmd ["+8:30"] 1 []).2 = Reply.scheduled 8 30 :=
  ⟨by decide, by decide, by decide⟩

/-- C7 (amended): every single-argument time string that does not parse —
splitting on ':' into exactly two fields, each a Python integer literal
(optional surrounding whitespace including the Unicode spaces Python's
`int` strips, an optional ASCII sign, underscore-grouped Unicode decimal
digits) — to an hour 0-23 and a minute 0-59 is rejected with a usage or
invalid-time message and the registry is left exactly unchanged; a wrong
argument count is likewise rejected with the usage message. The accepted
set is however strictly larger than literal HH:MM: "+8:30" and the
Arabic-Indic "٨:30" both schedule 08:30. -/
theorem C7_amended_invalid_rejected :
    (∀ (s : String) (chat : ℤ) (q : List Job), pyParseTime s = none →
      (schedule_digest_cmd [s] chat q).1 = q ∧
        ((schedule_digest_cmd [s] chat q).2 = Reply.usage ∨
          (schedule_digest_cmd [s] chat q).2 = Reply.invalidTime)) ∧
    (∀ (args : List String) (chat : ℤ) (q : List Job), args.length ≠ 1 →
      schedule_digest_cmd args chat q = (q, Reply.usage)) ∧
    ((schedule_digest_cmd ["٨:30"] 1 []).1
      = [{ name := "digest_1", hour := 8, minute := 30, chatId := 1 }]) := by
  refine ⟨?_, ?_, by decide⟩
  · intro s chat q hp
    simp only [schedule_digest_cmd]
    by_cases hc : s.toList.contains ':'
    · rw [if_pos hc, hp]
      exact ⟨rfl, Or.inr rfl⟩
    · rw [if_neg hc]
      exact ⟨rfl, Or.inl rfl⟩
  · intro args chat q hl
    match args with
    | [] => rfl
    | [a] => exact absurd rfl hl
    | a :: b :: t => rfl

/-- Witness for the amended C7: the out-of-range "25:61" is rejected with
the invalid-time reply and creates no job. -/
theorem C7_amended_invalid_rejected_witness :
    pyParseTime "25:61" = none ∧
      (schedule_digest_cmd ["25:61"] 1 []).1 = [] ∧
      ((schedule_digest_cmd ["25:61"] 1 []).2 = Reply.usage ∨
        (schedule_digest_cmd ["25:61"] 1 []).2 = Reply.invalidTime) ∧
      ([] : List String).length ≠ 1 ∧
      schedule_digest_cmd [] 1 [] = ([], Reply.usage) := by
  have hp : pyParseTime "25:61" = none := by decide
  have hl : ([] : List String).length ≠ 1 := by decide
  have main := C7_amended_invalid_rejected.1 "25:61" 1 [] hp
  exact ⟨hp, main.1, main.2, hl, C7_amended_invalid_rejected.2.1 [] 1 [] hl⟩

/-- C8: `cancel_digest_cmd` on a chat with no digest job replies that no
digest is set, changing nothing; on a chat with digest jobs it removes
every job of that name and confirms, so no later scheduler tick can ever
fire a job with the chat's digest name. -/
theorem C8_cancel_digest (chat : ℤ) (q : List Job) :
    (q.filter (fun j => j.name = digestName chat) = [] →
      cancel_digest_cmd chat q = (q, Reply.noDigest)) ∧
    (q.filter (fun j => j.name = digestName chat) ≠ [] →
      (cancel_digest_cmd chat q).2 = Reply.canceled ∧
        (cancel_digest_cmd chat q).1.filter (fun j => j.name = digestName chat) = [] ∧
        (∀ hh mm : ℤ, (dueJobs (cancel_digest_cmd chat q).1 hh mm).filter
            (fun j => j.name = digestName chat) = [])) := by
  constructor
  · intro h
    rw [cancel_digest_cmd, if_pos h]
  · intro h
    rw [cancel_digest_cmd, if_neg h]
    refine ⟨rfl, filter_name_of_filter_ne (digestName chat) q, fun hh mm => ?_⟩
    rw [dueJobs, List.filter_filter]
    apply List.filter_eq_nil_iff.mpr
    intro j hj
    have hj2 := List.of_mem_filter hj
    simp only [decide_eq_true_eq] at hj2
    simp [hj2]

/-- Witness for C8: the empty registry replies "no digest job", and a
one-job registry is emptied with no due job remaining at the job's own
fire time. -/
theorem C8_cancel_digest_witness :
    (([] : List Job).filter (fun j => j.name = digestName 1) = [] ∧
      cancel_digest_cmd 1 [] = ([], Reply.noDigest)) ∧
    ([Job.mk "digest_1" 8 30 1].filter (fun j => j.name = digestName 1) ≠ [] ∧
      (cancel_digest_cmd 1 [Job.mk "digest_1" 8 30 1]).2 = Reply.canceled ∧
      (cancel_digest_cmd 1 [Job.mk "digest_1" 8 30 1]).1.filter
          (fun j => j.name = digestName 1) = [] ∧
      (dueJobs (cancel_digest_cmd 1 [Job.mk "digest_1" 8 30 1]).1 8 30).filter
          (fun j => j.name = digestName 1) = []) := by
  have h1 : ([] : List Job).filter (fun j => j.name = digestName 1) = [] := by decide
  have h2 : [Job.mk "digest_1" 8 30 1].filter (fun j => j.name = digestName 1) ≠ [] := by
    decide
  have m2 := (C8_cancel_digest 1 [Job.mk "digest_1" 8 30 1]).2 h2
  exact ⟨⟨h1, (C8_cancel_digest 1 []).1 h1⟩, ⟨h2, m2.1, m2.2.1, m2.2.2 8 30⟩⟩

/-! ## Batch lemmas and claims C9-C10 -/

theorem runPairs_foldl (fmt : Pair → String → String) (g : Pair → Except String Snapshot) :
    ∀ (pairs : List Pair) (acc : List Snapshot × List String),
      pairs.foldl
          (fun acc p =>
            match g p with
            | Except.ok a => (acc.1 ++ [a], acc.2)
            | Except.error e => (acc.1, acc.2 ++ [fmt p e]))
          acc
        = (acc.1 ++ pairs.filterMap (fun p => (g p).toOption),
           acc.2 ++ pairs.filterMap (fun p =>
             match g p with
             | Except.ok _ => none
             | Except.error e => some (fmt p e)))
  | [], acc => by simp
  | p :: rest, acc => by
      rw [List.foldl_cons, runPairs_foldl fmt g rest]
      cases hg : g p <;>
        simp [hg, List.filterMap_cons, Except.toOption]

theorem runPairs_eq (fmt : Pair → String → String) (g : Pair → Except String Snapshot)
    (pairs : List Pair) :
    runPairs fmt g pairs
      = (pairs.filterMap (fun p => (g p).toOption),
         pairs.filterMap (fun p =>
           match g p with
           | Except.ok _ => none
           | Except.error e => some (fmt p e))) := by
  rw [runPairs, runPairs_foldl fmt g pairs]
  simp

theorem filterMap_counts (fmt : Pair → String → String)
    (g : Pair → Except String Snapshot) (pairs : List Pair) :
    (pairs.filterMap (fun p => (g p).toOption)).length
      + (pairs.filterMap (fun p =>
          match g p with
          | Except.ok _ => none
          | Except.error e => some (fmt p e))).length
      = pairs.length := by
  induction pairs with
  | nil => rfl
  | cons p rest ih =>
      simp only [Except.toOption] at ih ⊢
      rw [List.filterMap_cons, List.filterMap_cons]
      cases hg : g p <;>
        simp only [hg, List.length_cons] <;> omega

theorem runPairs_length (fmt : Pair → String → String) (g : Pair → Except String Snapshot)
    (pairs : List Pair) :
    (runPairs fmt g pairs).1.length + (runPairs fmt g pairs).2.length = pairs.length := by
  rw [runPairs_eq]
  exact filterMap_counts fmt g pairs

theorem runPairs_congr (fmt : Pair → String → String)
    (g g' : Pair → Except String Snapshot) (pairs : List Pair)
    (h : ∀ p ∈ pairs, g p = g' p) :
    runPairs fmt g pairs = runPairs fmt g' pairs := by
  rw [runPairs_eq, runPairs_eq]
  have h1 : pairs.filterMap (fun p => (g p).toOption)
      = pairs.filterMap (fun p => (g' p).toOption) :=
    List.filterMap_congr fun p hp => by rw [h p hp]
  have h2 : pairs.filterMap (fun p =>
        match g p with
        | Except.ok _ => none
        | Except.error e => some (fmt p e))
      = pairs.filterMap (fun p =>
        match g' p with
        | Except.ok _ => none
        | Except.error e => some (fmt p e)) :=
    List.filterMap_congr fun p hp => by rw [h p hp]
  rw [h1, h2]

/-- C9 counterexample: one digest fire under an oracle where GBP/USD fails
records the failure in the warning log and continues with the other three
pairs, but the messages sent to the chat are just the headlines and the
three-snapshot summary — no failure summary is reported to the user. -/
theorem C9_counterexample_digest_silent :
    digest_job none [] gFail
      = ([Msg.headlines [], Msg.trendSummary [sampleSnap, sampleSnap, sampleSnap]],
         ["digest pair fail GBP/USD: No time series returned."]) := by
  decide

/-- C9 (amended): every multi-pair batch processes every pair — the
snapshot count plus the failure count equals the pair count; in the
concrete [ok, fails, ok] scenario the batch yields 2 snapshots and 1
recorded failure; in `/trends` the collected failures are reported to the
user as the trailing message; in the digest the failures are recorded in
the warning log and the loop continues, but no failure summary is sent to
the user. -/
theorem C9_amended_batch_failures :
    (∀ (fmt : Pair → String → String) (g : Pair → Except String Snapshot)
        (pairs : List Pair),
      (runPairs fmt g pairs).1.length + (runPairs fmt g pairs).2.length = pairs.length) ∧
    (∀ (s1 s3 : Snapshot) (e : String),
      runPairs trendsErrFmt
          (fun p => if p = ("EUR", "USD") then Except.ok s1
            else if p = ("GBP", "USD") then Except.error e else Except.ok s3)
          [("EUR", "USD"), ("GBP", "USD"), ("USD", "JPY")]
        = ([s1, s3], ["GBP/USD: " ++ e])) ∧
    (∀ g : Pair → Except String Snapshot,
      (runPairs trendsErrFmt g MAJOR_PAIRS).2 ≠ [] →
      (trends_cmd g).getLast?
        = some (Msg.pairFailures ((runPairs trendsErrFmt g MAJOR_PAIRS).2.take 5))) ∧
    (∀ (key : Option String) (articles : List String)
        (g : Pair → Except String Snapshot),
      (digest_job key articles g).1.any isPairFailures = false ∧
      (runPairs digestLogFmt g (MAJOR_PAIRS.take 4)).1.length
          + (digest_job key articles g).2.length = 4) := by
  refine ⟨runPairs_length, fun s1 s3 e => ?_, fun g hne => ?_, fun key articles g => ?_⟩
  · rw [runPairs_eq]
    simp [trendsErrFmt, Except.toOption]
  · simp only [trends_cmd]
    by_cases h1 : (runPairs trendsErrFmt g MAJOR_PAIRS).1 = [] <;>
      simp [h1, hne, List.getLast?_concat]
  · constructor
    · simp only [digest_job, List.any_cons, List.any_nil, isPairFailures]
      by_cases h1 : (runPairs digestLogFmt g (MAJOR_PAIRS.take 4)).1 = [] <;>
        simp [h1, isPairFailures]
    · have hc := runPairs_length digestLogFmt g (MAJOR_PAIRS.take 4)
      have hd : (digest_job key articles g).2
          = (runPairs digestLogFmt g (MAJOR_PAIRS.take 4)).2 := rfl
      rw [hd]
      simpa using hc

/-- Witness for the amended C9: the conjuncts instantiated on the concrete
failing oracle `gFail`. -/
theorem C9_amended_batch_failures_witness :
    ((runPairs trendsErrFmt gFail MAJOR_PAIRS).1.length
        + (runPairs trendsErrFmt gFail MAJOR_PAIRS).2.length = MAJOR_PAIRS.length) ∧
    (runPairs trendsErrFmt
        (fun p => if p = ("EUR", "USD") then Except.ok sampleSnap
          else if p = ("GBP", "USD") then Except.error "NoData" else Except.ok sampleSnap)
        [("EUR", "USD"), ("GBP", "USD"), ("USD", "JPY")]
      = ([sampleSnap, sampleSnap], ["GBP/USD: " ++ "NoData"])) ∧
    ((runPairs trendsErrFmt gFail MAJOR_PAIRS).2 ≠ []) ∧
    ((trends_cmd gFail).getLast?
      = some (Msg.pairFailures ((runPairs trendsErrFmt gFail MAJOR_PAIRS).2.take 5))) ∧
    ((digest_job none [] gFail).1.any isPairFailures = false ∧
      (runPairs digestLogFmt gFail (MAJOR_PAIRS.take 4)).1.length
        + (digest_job none [] gFail).2.length = 4) := by
  have hne : (runPairs trendsErrFmt gFail MAJOR_PAIRS).2 ≠ [] := by decide
  exact ⟨C9_amended_batch_failures.1 trendsErrFmt gFail MAJOR_PAIRS,
    C9_amended_batch_failures.2.1 sampleSnap sampleSnap "NoData",
    hne, C9_amended_batch_failures.2.2.1 gFail hne,
    C9_amended_batch_failures.2.2.2 none [] gFail⟩

/-- C10: the scheduled digest analyzes exactly the first 4 of the 7
configured majors and requests at most 5 headlines — its output is
unchanged by any change to the oracle outside those 4 pairs and by any
article beyond the first 5 — while `/trends` processes all 7 majors. -/
theorem C10_digest_subset :
    MAJOR_PAIRS.length = 7 ∧
    MAJOR_PAIRS.take 4 = [("EUR", "USD"), ("GBP", "USD"), ("USD", "JPY"), ("USD", "CHF")] ∧
    (∀ (key : Option String) (articles : List String)
        (g g' : Pair → Except String Snapshot),
      (∀ p ∈ MAJOR_PAIRS.take 4, g p = g' p) →
      digest_job key articles g = digest_job key articles g') ∧
    (∀ (key : Option String) (articles : List String)
        (g : Pair → Except String Snapshot),
      digest_job key articles g = digest_job key (articles.take 5) g) ∧
    (∀ (key : Option String) (articles : List String)
        (g : Pair → Except String Snapshot) (hs : List String),
      Msg.headlines hs ∈ (digest_job key articles g).1 → hs.length ≤ 5) ∧
    (∀ g : Pair → Except String Snapshot,
      (runPairs trendsErrFmt g MAJOR_PAIRS).1.length
        + (runPairs trendsErrFmt g MAJOR_PAIRS).2.length = 7) := by
  refine ⟨by decide, by decide, fun key articles g g' h => ?_, fun key articles g => ?_,
    fun key articles g hs hmem => ?_, fun g => ?_⟩
  · simp only [digest_job, runPairs_congr digestLogFmt g g' (MAJOR_PAIRS.take 4) h]
  · have hnews : get_forex_news key (articles.take 5) 5 = get_forex_news key articles 5 := by
      cases key <;> simp [get_forex_news, List.take_take]
    simp only [digest_job, hnews]
  · have hlen : (get_forex_news key articles 5).length ≤ 5 := by
      cases key <;> simp [get_forex_news]
    simp only [digest_job, List.mem_cons, List.not_mem_nil, or_false] at hmem
    rcases hmem with hmem | hmem
    · rw [show hs = get_forex_news key articles 5 from (Msg.headlines.injEq _ _).mp hmem]
      exact hlen
    · by_cases h1 : (runPairs digestLogFmt g (MAJOR_PAIRS.take 4)).1 = [] <;>
        simp [h1] at hmem
  · simpa using runPairs_length trendsErrFmt g MAJOR_PAIRS

/-- Witness for C10: the oracle-independence and headline-truncation
conjuncts instantiated on concrete oracles and articles. -/
theorem C10_digest_subset_witness :
    (∀ p ∈ MAJOR_PAIRS.take 4, gFail p = gAlt p) ∧
    digest_job none [] gFail = digest_job none [] gAlt ∧
    digest_job none ["a", "b", "c", "d", "e", "f"] gFail
      = digest_job none (["a", "b", "c", "d", "e", "f"].take 5) gFail ∧
    (Msg.headlines (get_forex_news (some "k") ["a", "b", "c", "d", "e", "f"] 5)
        ∈ (digest_job (some "k") ["a", "b", "c", "d", "e", "f"] gFail).1) ∧
    (get_forex_news (some "k") ["a", "b", "c", "d", "e", "f"] 5).length ≤ 5 ∧
    (runPairs trendsErrFmt gFail MAJOR_PAIRS).1.length
      + (runPairs trendsErrFmt gFail MAJOR_PAIRS).2.length = 7 := by
  have hagree : ∀ p ∈ MAJOR_PAIRS.take 4, gFail p = gAlt p := by
    intro p hp
    fin_cases hp <;> rfl
  have hmem : Msg.headlines (get_forex_news (some "k") ["a", "b", "c", "d", "e", "f"] 5)
      ∈ (digest_job (some "k") ["a", "b", "c", "d", "e", "f"] gFail).1 := by decide
  exact ⟨hagree, C10_digest_subset.2.2.1 none [] gFail gAlt hagree,
    C10_digest_subset.2.2.2.1 none ["a", "b", "c", "d", "e", "f"] gFail,
    hmem,
    C10_digest_subset.2.2.2.2.1 (some "k") ["a", "b", "c", "d", "e", "f"] gFail _ hmem,
    C10_digest_subset.2.2.2.2.2 gFail⟩

end WyseForex
